import Mathlib

/-!
Shallow embedding of the structured query planning, validation and SQL
generation pipeline of the DataChat NL→SQL repository, together with its
semantic result cache, and proofs of the specified properties.

Source files embedded (TypeScript):
- src/lib/reasoning/types.ts                (plan model)
- src/lib/reasoning/logicalSchemaRegistry   (registry, appended in extractMetrics.ts)
- src/lib/reasoning/semanticColumnResolver.ts
- src/lib/reasoning/normalizePlan.ts
- src/lib/reasoning/validator.ts
- src/lib/reasoning/extractMetrics.ts
- src/lib/db/tableResolver.ts
- src/lib/sql/sqlBuilder.ts
- src/lib/query-cache/semanticKey.ts
- src/unnamed/part_003                      (semantic query cache store)

Modelling conventions: JavaScript exceptions are `Except String`; fields that
the source guards with `Array.isArray` are `Option (List _)` (`none` models a
missing or non-array field); `typeof x === "string"` guards make the field an
`Option String`; JavaScript string falsiness (`!s`) is the empty string or a
missing optional.  Machine numbers that matter only as values are `Int`.
-/

namespace DataChat

/-! ## Character/string helpers (models of the JS string builtins used) -/

/-- Model of testing whether `w` is an initial segment of `l` (used by the
`String.prototype.includes` model below). -/
def isHeadOf : List Char → List Char → Bool
  | [], _ => true
  | _ :: _, [] => false
  | a :: as, b :: bs => a == b && isHeadOf as bs

/-- Model of `hay.includes(needle)` on the underlying character lists. -/
def containsChars : List Char → List Char → Bool
  | [], needle => isHeadOf needle []
  | c :: t, needle => isHeadOf needle (c :: t) || containsChars t needle

/-- Model of `String.prototype.includes`. -/
def strIncludes (s w : String) : Bool :=
  containsChars s.data w.data

/-- Model of `String.prototype.toLowerCase` (ASCII-accurate; the keyword and
hint constants of the source are all ASCII). -/
def lowerStr (s : String) : String :=
  ⟨s.data.map Char.toLower⟩

/-- Model of `Array.prototype.join(sep)` for string arrays. -/
def joinSep (sep : String) : List String → String
  | [] => ""
  | [x] => x
  | x :: y :: rest => x ++ sep ++ joinSep sep (y :: rest)

/-- The single-quote character, written by code point. -/
def sqChar : Char := Char.ofNat 39

/-- The single-quote as a string. -/
def sq : String := String.singleton sqChar

/-! ## Data model (src/lib/reasoning/types.ts) -/

/-- Filter values are strings or numbers in the source (`value: string | number`). -/
inductive FilterValue where
  | str (s : String)
  | num (n : Int)
deriving DecidableEq, Repr

/-- Filter = \x7b column, operator, value \x7d. -/
structure Filter where
  column : String
  operator : String
  value : FilterValue
deriving DecidableEq, Repr

/-- Metric = \x7b column, aggregation \x7d; `column` is `Option` because the
untrusted input may omit it (the validator tests `!metric.column`). -/
structure Metric where
  column : Option String
  aggregation : String
deriving DecidableEq, Repr

/-- StructuredPlan from types.ts.  Every array-typed field is `Option (List _)`
because the source defends each use with `Array.isArray`; `intent` is
`Option String` (the normalizer tests `typeof plan.intent === "string"`);
`limit` is `Option Int` (`null` and `undefined` both map to `none`, the SQL
builder tests `typeof plan.limit === "number"`). -/
structure StructuredPlan where
  intent : Option String
  tables : Option (List String)
  columns : Option (List String)
  filters : Option (List Filter)
  group_by : Option (List String)
  order_by : Option (List String)
  limit : Option Int
  metrics : Option (List Metric)
deriving DecidableEq, Repr

/-! ## Logical schema registry (appended registry module, extractMetrics.ts lines 102-194) -/

/-- Registry entry.  The TypeScript entry stores `columns` as a `Set`; the
accessor `getLogicalTable` returns `Array.from(entry.columns)`, so a list with
its membership test is the faithful view.  Note the entry type has no
`columnEmbeddings` or `intentEmbedding` field. -/
structure LogicalTableEntry where
  logicalName : String
  physicalName : String
  columns : List String
  description : Option String
deriving DecidableEq, Repr

/-- The process-wide registry state: the contents of the module-level
`Map<string, LogicalTableEntry>`, modelled as an association list looked up by
`logicalName`. -/
abbrev Registry := List LogicalTableEntry

/-- getLogicalTable (registry module): throws `Unknown logical table` when the
name is absent, otherwise returns the entry. -/
def getLogicalTable (reg : Registry) (logicalName : String) : Except String LogicalTableEntry :=
  match reg.find? (fun e => e.logicalName == logicalName) with
  | some entry => .ok entry
  | none => .error ("Unknown logical table: " ++ logicalName)

/-! ## Semantic column resolver (src/lib/reasoning/semanticColumnResolver.ts) -/

/-- resolveColumnSemantically.  The source looks up the table via
`getLogicalTable` (which throws for unknown names) and then guards on
`if (!table?.columnEmbeddings) return null`.  The registry accessor returns
only `\x7b logicalName, physicalName, columns, description \x7d` — the entry type
(extractMetrics.ts lines 111-116) has no `columnEmbeddings` field and
`registerLogicalTable` never sets one — so whenever the lookup succeeds the
guard fires and the function returns `null`. -/
def resolveColumnSemantically (reg : Registry) (_intent : String)
    (logicalTableName : String) : Except String (Option String) :=
  match getLogicalTable reg logicalTableName with
  | .error e => .error e
  | .ok _ => .ok none

/-! ## Plan normalizer (src/lib/reasoning/normalizePlan.ts) -/

/-- normalizePlan.  Mirrors the source statement for statement.  The source's
`if (!tableSchema) return plan` branch after `getLogicalTable` is unreachable
(the accessor throws instead of returning null), so an unknown first table
propagates the `Unknown logical table` exception. -/
def normalizePlan (reg : Registry) (plan : StructuredPlan) : Except String StructuredPlan :=
  match plan.tables with
  | none => .ok plan
  | some [] => .ok plan
  | some (logicalTable :: _) =>
    match getLogicalTable reg logicalTable with
    | .error e => .error e
    | .ok tableSchema =>
      let validColumns := tableSchema.columns
      -- GENERAL semantic column resolution
      match
        (if plan.intent.isSome ∧ plan.columns = some [] ∧ plan.metrics = some [] then
          resolveColumnSemantically reg (plan.intent.getD "") logicalTable
        else .ok none) with
      | .error e => .error e
      | .ok resolvedColumn =>
        let plan :=
          match resolvedColumn with
          | some c =>
            if validColumns.contains c then
              { plan with columns := some [c], group_by := some [c] }
            else plan
          | none => plan
        -- Normalize columns
        let columns := plan.columns.getD []
        let columns := if columns.contains "*" then [] else columns
        let columns :=
          if columns.any (fun c => !(validColumns.contains c)) then [] else columns
        -- Normalize filters / metrics safely
        let filters := (plan.filters.getD []).filter
          (fun f => validColumns.contains f.column)
        let metrics := (plan.metrics.getD []).filter
          (fun m => match m.column with
            | some c => validColumns.contains c
            | none => false)
        let groupBy := (plan.group_by.getD []).filter
          (fun c => validColumns.contains c)
        let orderBy := (plan.order_by.getD []).filter
          (fun c => validColumns.contains c)
        .ok { plan with
          columns := some columns
          filters := some filters
          metrics := some metrics
          group_by := some groupBy
          order_by := some orderBy }

/-! ## Plan validator (src/lib/reasoning/validator.ts) -/

/-- Model of `Array.from(new Set(plan.tables))`: deduplication keeping the
first occurrence of each element, in order (JS `Set` iterates in insertion
order). -/
def dedupFirst (l : List String) : List String :=
  go l []
where
  /-- Worker: keep elements not already seen. -/
  go : List String → List String → List String
  | [], _ => []
  | x :: xs, seen =>
    if seen.contains x then go xs seen else x :: go xs (x :: seen)

/-- Validator step 5: one filter (`!filter?.column || !filter?.operator` is
JS falsiness, i.e. the empty string for these required string fields). -/
def checkFilter (validColumns : List String) (f : Filter) : Except String Unit :=
  if f.column = "" ∨ f.operator = "" then .error "Invalid filter structure"
  else if validColumns.contains f.column then .ok ()
  else .error ("Invalid filter column: " ++ f.column)

/-- JS falsiness of `metric.column` (missing or empty string). -/
def metricColumnFalsy (c : Option String) : Prop :=
  c = none ∨ c = some ""

instance (c : Option String) : Decidable (metricColumnFalsy c) := by
  unfold metricColumnFalsy; infer_instance

/-- Validator step 6: one metric. -/
def checkMetric (validColumns : List String) (m : Metric) : Except String Unit :=
  if m.aggregation = "" then .error "Invalid metric structure"
  else if m.aggregation = "COUNT" ∧ (m.column = some "*" ∨ metricColumnFalsy m.column) then
    .ok ()
  else if metricColumnFalsy m.column then
    .error ("Aggregation " ++ m.aggregation ++ " requires a column")
  else if validColumns.contains (m.column.getD "") then .ok ()
  else .error ("Invalid metric column: " ++ m.column.getD "")

/-- Model of the validator's `for` loops: first failing element's error. -/
def firstViolation {α : Type} (check : α → Except String Unit) :
    List α → Except String Unit
  | [] => .ok ()
  | x :: xs =>
    match check x with
    | .error e => .error e
    | .ok () => firstViolation check xs

/-- validatePlan.  The source mutates the plan in place (tables deduplication
and array-field write-back) and throws on the first violation; we return the
mutated plan on success.  As in the normalizer, the `if (!tableSchema)` branch
after `getLogicalTable` is unreachable because the accessor throws. -/
def validatePlan (reg : Registry) (plan : StructuredPlan) : Except String StructuredPlan :=
  -- 0. Basic sanity checks
  match plan.tables with
  | none => .error "No table specified in plan"
  | some [] => .error "No table specified in plan"
  | some tabs =>
    let tables := dedupFirst tabs
    -- 1. Enforce single-table execution
    if tables.length > 1 then .error "Multiple tables not supported yet"
    else
      match tables with
      | [] =>
        -- unreachable: dedupFirst of a non-empty list is non-empty; in JS
        -- `tables[0]` would be undefined and the registry lookup would throw
        .error "Unknown logical table: undefined"
      | logicalTable :: _ =>
        match getLogicalTable reg logicalTable with
        | .error e => .error e
        | .ok tableSchema =>
          let validColumns := tableSchema.columns
          if validColumns = [] then
            .error ("No columns registered for table: " ++ logicalTable)
          else
            -- 2. Normalize fields (write back)
            let columns := plan.columns.getD []
            let filters := plan.filters.getD []
            let metrics := plan.metrics.getD []
            let group_by := plan.group_by.getD []
            let order_by := plan.order_by.getD []
            -- 3. Disallow SQL wildcard
            if columns.contains "*" then
              .error "Invalid column \"*\". Use empty columns array to mean SELECT *"
            else
              -- 4. Validate selected columns
              match columns.find? (fun c => !(validColumns.contains c)) with
              | some c => .error ("Invalid column: " ++ c)
              | none =>
                -- 5. Validate filters
                match firstViolation (checkFilter validColumns) filters with
                | .error e => .error e
                | .ok () =>
                  -- 6. Validate metrics
                  match firstViolation (checkMetric validColumns) metrics with
                  | .error e => .error e
                  | .ok () =>
                    -- 7. GROUP BY validation
                    if metrics.length > 0 ∧ columns.length > 0 ∧ group_by.length = 0 then
                      .error "GROUP BY required when using metrics with columns"
                    else
                      match group_by.find? (fun c => !(validColumns.contains c)) with
                      | some c => .error ("Invalid group_by column: " ++ c)
                      | none =>
                        -- 8. ORDER BY validation
                        match order_by.find? (fun c =>
                            !(group_by.contains c
                              || metrics.any (fun m => m.column == some c))) with
                        | some c =>
                          .error ("ORDER BY column \"" ++ c
                            ++ "\" must be grouped or aggregated")
                        | none =>
                          .ok { plan with
                            tables := some tables
                            columns := some columns
                            filters := some filters
                            metrics := some metrics
                            group_by := some group_by
                            order_by := some order_by }

/-! ## Metric extractor (src/lib/reasoning/extractMetrics.ts) -/

/-- METRIC_KEYWORDS, in the fixed priority order of the source. -/
def METRIC_KEYWORDS : List (List String × String) :=
  [(["how many", "count", "number of"], "COUNT"),
   (["average", "mean", "avg"], "AVG"),
   (["total", "sum"], "SUM"),
   (["maximum", "highest", "max"], "MAX"),
   (["minimum", "lowest", "min"], "MIN")]

/-- NUMERIC_HINTS from inferMetricColumn. -/
def NUMERIC_HINTS : List String :=
  ["balance", "amount", "price", "salary", "income", "age",
   "score", "count", "total", "duration", "years"]

/-- inferMetricColumn.  For `COUNT` it returns `*` before touching the plan;
otherwise it reads `plan.columns` (in JS a missing/non-array `columns` makes
`plan.columns.length` throw a TypeError, modelled by the `none` branch), takes
a single explicitly selected column, then scans the selected columns for a
numeric-sounding fragment, and finally throws. -/
def inferMetricColumn (agg : String) (plan : StructuredPlan) : Except String String :=
  if agg = "COUNT" then .ok "*"
  else
    match plan.columns with
    | none => .error "TypeError: cannot read length of plan.columns"
    | some cols =>
      match cols with
      | [c] => .ok c
      | _ =>
        match cols.find? (fun col =>
            NUMERIC_HINTS.any (fun h => strIncludes (lowerStr col) h)) with
        | some col => .ok col
        | none =>
          .error ("Cannot infer numeric column for " ++ agg
            ++ ". Ask user to specify a column.")

/-- extractMetrics.  Resets `plan.metrics` to `[]`, takes the first keyword
rule matching the lower-cased question (the loop `break`s after one match,
modelled by `find?`), pushes the single inferred metric, and when a metric was
produced clears columns, ordering and limit (`plan.limit = null` is `none`). -/
def extractMetrics (question : String) (plan : StructuredPlan) :
    Except String StructuredPlan :=
  let q := lowerStr question
  let plan := { plan with metrics := some [] }
  match METRIC_KEYWORDS.find? (fun rule => rule.1.any (fun w => strIncludes q w)) with
  | none => .ok plan
  | some rule =>
    match inferMetricColumn rule.2 plan with
    | .error e => .error e
    | .ok column =>
      let plan := { plan with
        metrics := some [{ column := some column, aggregation := rule.2 }] }
      -- aggregation used: force aggregation mode
      .ok { plan with columns := some [], order_by := some [], limit := none }

/-- The aggregation of the first keyword rule matching the question, if any
(derived view of the same constant table, used to state the priority order). -/
def firstMatchedAgg (question : String) : Option String :=
  (METRIC_KEYWORDS.find? (fun rule =>
    rule.1.any (fun w => strIncludes (lowerStr question) w))).map (fun r => r.2)

/-! ## Physical table resolver (src/lib/db/tableResolver.ts) -/

/-- Options record passed to the SQL builder. -/
structure BuildOptions where
  sessionId : Option String
  explicitTableName : Option String
deriving DecidableEq, Repr

/-- resolvePhysicalTable (db/tableResolver.ts).  An explicit override wins
when truthy; otherwise the registry is consulted (`getLogicalTable` throws for
unknown names) and a falsy `physicalName` (empty string) is rejected. -/
def resolvePhysicalTable (reg : Registry) (logicalTable : String)
    (options : BuildOptions) : Except String String :=
  if options.explicitTableName.getD "" ≠ "" then
    .ok (options.explicitTableName.getD "")
  else
    match getLogicalTable reg logicalTable with
    | .error e => .error e
    | .ok entry =>
      if entry.physicalName = "" then
        .error ("Physical table not found for logical table: " ++ logicalTable)
      else .ok entry.physicalName

/-! ## SQL builder (src/lib/sql/sqlBuilder.ts) -/

/-- Replace every single quote with two single quotes (the
`String(f.value).replace(/'/g, "''")` escaping). -/
def escapeQuotes (s : String) : String :=
  ⟨s.data.foldr (fun c acc => if c = sqChar then sqChar :: sqChar :: acc else c :: acc) []⟩

/-- Render a filter value: numbers literally, strings single-quoted with
quotes doubled. -/
def renderValue : FilterValue → String
  | .num n => toString n
  | .str s => sq ++ escapeQuotes s ++ sq

/-- Model of one `if (list && list.length > 0) sql += clause(list)` step of
the builder: append the rendered clause exactly when the field is an array
with at least one element. -/
def appendIfList {α : Type} (sql : String) (o : Option (List α))
    (render : List α → String) : String :=
  match o with
  | some (x :: xs) => sql ++ render (x :: xs)
  | _ => sql

/-- buildSQL.  Pure deterministic construction; a plan whose `tables` is
missing or empty would make the JS code throw while reading `plan.tables[0]`
(modelled by the final error branch). -/
def buildSQL (reg : Registry) (plan : StructuredPlan) (options : BuildOptions) :
    Except String String :=
  match plan.tables with
  | some (logicalTable :: _) =>
    match resolvePhysicalTable reg logicalTable options with
    | .error e => .error e
    | .ok physicalTable =>
      let tableRef := "\"" ++ physicalTable ++ "\""
      -- 2. SELECT clause
      let selectParts : List String :=
        match plan.metrics with
        | some (m :: ms) =>
          (m :: ms).map (fun m =>
            if m.aggregation = "COUNT" ∧ (metricColumnFalsy m.column ∨ m.column = some "*")
            then "COUNT(*)"
            else m.aggregation ++ "(\"" ++ m.column.getD "" ++ "\")")
        | _ =>
          match plan.columns with
          | some (c :: cs) => (c :: cs).map (fun col => "\"" ++ col ++ "\"")
          | _ => ["*"]
      let sql := "SELECT " ++ joinSep ", " selectParts ++ " FROM " ++ tableRef
      -- 3. WHERE clause
      let sql := appendIfList sql plan.filters (fun fl =>
        " WHERE " ++ joinSep " AND " (fl.map (fun f =>
          "\"" ++ f.column ++ "\" " ++ f.operator ++ " " ++ renderValue f.value)))
      -- 4. GROUP BY
      let sql := appendIfList sql plan.group_by (fun l =>
        " GROUP BY " ++ joinSep ", " (l.map (fun col => "\"" ++ col ++ "\"")))
      -- 5. ORDER BY
      let sql := appendIfList sql plan.order_by (fun l =>
        " ORDER BY " ++ joinSep ", " (l.map (fun col => "\"" ++ col ++ "\"")))
      -- 6. LIMIT
      let sql :=
        match plan.limit with
        | some n => sql ++ " LIMIT " ++ toString n
        | none => sql
      .ok sql
  | _ => .error "TypeError: cannot read plan.tables[0]"

/-! ## Semantic cache key (src/lib/query-cache/semanticKey.ts) -/

/-- JSON string escaping for the serializer model (quote and backslash; the
control-character escapes of `JSON.stringify` are elided, no claim depends on
them). -/
def jsonEscape (s : String) : String :=
  ⟨s.data.foldr (fun c acc =>
    if c = '"' then '\\' :: '"' :: acc
    else if c = '\\' then '\\' :: '\\' :: acc
    else c :: acc) []⟩

/-- A JSON string literal. -/
def jsonString (s : String) : String := "\"" ++ jsonEscape s ++ "\""

/-- A JSON array from already-serialized elements. -/
def jsonArr (elems : List String) : String := "[" ++ joinSep "," elems ++ "]"

/-- Model of `JSON.stringify` on a filter value. -/
def filterValueJson : FilterValue → String
  | .str s => jsonString s
  | .num n => toString n

/-- Model of `JSON.stringify` on a filter object (fields in the declaration
order of the `Filter` type; JS object key order depends on how the object was
built, and none of the proved fingerprint properties depend on the choice). -/
def filterJson (f : Filter) : String :=
  "\x7b\"column\":" ++ jsonString f.column
    ++ ",\"operator\":" ++ jsonString f.operator
    ++ ",\"value\":" ++ filterValueJson f.value ++ "\x7d"

/-- Model of `JSON.stringify` on a metric object (a missing `column` is
omitted, as `JSON.stringify` drops `undefined` properties). -/
def metricJson (m : Metric) : String :=
  match m.column with
  | some c =>
    "\x7b\"column\":" ++ jsonString c
      ++ ",\"aggregation\":" ++ jsonString m.aggregation ++ "\x7d"
  | none => "\x7b\"aggregation\":" ++ jsonString m.aggregation ++ "\x7d"

/-- buildSemanticCacheKey.  The source sorts a copy of each list —
`columns`/`group_by` with the default string sort, `metrics`/`filters` by
comparing their `JSON.stringify` serializations — and serializes the resulting
object.  Sorting is modelled by `List.insertionSort` over the string order
(the default sort compares UTF-16 code-unit sequences and `localeCompare` is a
total comparison on the serialized text; as with any comparison sort, the
output is the unique sorted permutation of the input, which is all the proofs
use). -/
def buildSemanticCacheKey (tableName : String) (plan : StructuredPlan) : String :=
  let cols := (plan.columns.getD []).insertionSort (fun a b => a ≤ b)
  let mets := (plan.metrics.getD []).insertionSort
    (fun a b => metricJson a ≤ metricJson b)
  let fils := (plan.filters.getD []).insertionSort
    (fun a b => filterJson a ≤ filterJson b)
  let gb := (plan.group_by.getD []).insertionSort (fun a b => a ≤ b)
  "\x7b\"table\":" ++ jsonString tableName
    ++ ",\"intent\":" ++ jsonString (plan.intent.getD "")
    ++ ",\"columns\":" ++ jsonArr (cols.map jsonString)
    ++ ",\"metrics\":" ++ jsonArr (mets.map metricJson)
    ++ ",\"filters\":" ++ jsonArr (fils.map filterJson)
    ++ ",\"group_by\":" ++ jsonArr (gb.map jsonString)
    ++ "\x7d"

/-! ## Semantic query cache store (src/unnamed/part_003) -/

/-- Result rows are opaque to the cache store (only their count and a bounded
prefix are used), so a row is modelled as an uninterpreted string. -/
abbrev QueryResult := String

/-- Whitespace-run collapsing (`.replace(/\s+/g, " ")`): the first whitespace
character of a run becomes a single space, the rest are dropped. -/
def collapseWsChars : List Char → Bool → List Char
  | [], _ => []
  | c :: rest, prevWs =>
    if c.isWhitespace then
      if prevWs then collapseWsChars rest true
      else ' ' :: collapseWsChars rest true
    else c :: collapseWsChars rest false

/-- Model of `String.prototype.trim`. -/
def trimChars (l : List Char) : List Char :=
  ((l.dropWhile Char.isWhitespace).reverse.dropWhile Char.isWhitespace).reverse

/-- normalizeSql: trim, strip one trailing semicolon (after trimming, the
anchored pattern `;\s*$` can only match a final `;`), collapse whitespace. -/
def normalizeSql (sql : String) : String :=
  let t := trimChars sql.data
  let t :=
    match t.reverse with
    | c :: rest => if c = ';' then rest.reverse else t
    | [] => t
  ⟨collapseWsChars t false⟩

/-- Parameters of storeQueryInCache.  `embedding` is `Option` because the
source guards `!params.embedding`; `results` likewise (`params.results?.`). -/
structure StoreParams where
  sessionId : Option String
  tableName : Option String
  question : String
  sql : String
  results : Option (List QueryResult)
  embedding : Option (List Int)
deriving DecidableEq, Repr

/-- The row inserted into `conversation_query_cache`. -/
structure CacheRow where
  session_id : Option String
  table_name : Option String
  question : String
  normalized_sql : String
  result_sample : List QueryResult
  row_count : Nat
  question_embedding : List Int
deriving DecidableEq, Repr

/-- storeQueryInCache: the row the call inserts, or `none` when the write is
rejected (missing embedding, empty embedding, or wrong dimension).  `dim` is
the configured `EMBEDDING_DIM`.  The database round-trip itself is out of
scope; what is modelled is exactly which row, if any, is handed to the
insert. -/
def storeQueryInCache (dim : Nat) (params : StoreParams) : Option CacheRow :=
  match params.embedding with
  | none => none
  | some emb =>
    if emb.length = 0 then none
    else if emb.length ≠ dim then none
    else
      some {
        session_id := params.sessionId
        table_name := params.tableName
        question := params.question
        normalized_sql := normalizeSql params.sql
        result_sample := (params.results.getD []).take 100
        row_count := (params.results.getD []).length
        question_embedding := emb }

/-! ## Shared fixtures for concrete evaluations -/

/-- A one-table registry used by concrete evaluations. -/
def ordersReg : Registry :=
  [⟨"orders", "orders_phys", ["id", "amount", "status"], none⟩]

/-- A well-formed base plan over the `orders` table. -/
def basePlan : StructuredPlan :=
  { intent := some "select", tables := some ["orders"], columns := some [],
    filters := some [], group_by := some [], order_by := some [], limit := none,
    metrics := some [] }

/-! ## General lemmas about the embedding -/

/-- The validator's `for` loop succeeds exactly when every element passes. -/
theorem firstViolation_ok_forall {α : Type} {check : α → Except String Unit}
    {l : List α} (h : firstViolation check l = .ok ()) :
    ∀ x ∈ l, check x = .ok () := by
  induction l with
  | nil => intro x hx; cases hx
  | cons a t ih =>
    intro x hx
    unfold firstViolation at h
    rcases hca : check a with e | u
    · rw [hca] at h; cases h
    · rw [hca] at h
      rcases List.mem_cons.mp hx with hx | hx
      · subst hx; cases u; exact hca
      · exact ih h x hx

/-- Success characterization of `validatePlan`: everything that must be true
of the input for the validator to accept, plus the exact returned plan. -/
theorem validatePlan_ok_spec {reg : Registry} {plan p2 : StructuredPlan}
    (h : validatePlan reg plan = .ok p2) :
    ∃ tabs logicalTable schema,
      plan.tables = some tabs ∧
      dedupFirst tabs = [logicalTable] ∧
      getLogicalTable reg logicalTable = .ok schema ∧
      schema.columns ≠ [] ∧
      (plan.columns.getD []).contains "*" = false ∧
      (∀ c ∈ plan.columns.getD [], schema.columns.contains c = true) ∧
      firstViolation (checkFilter schema.columns) (plan.filters.getD []) = .ok () ∧
      firstViolation (checkMetric schema.columns) (plan.metrics.getD []) = .ok () ∧
      ¬(0 < (plan.metrics.getD []).length ∧ 0 < (plan.columns.getD []).length ∧
          (plan.group_by.getD []).length = 0) ∧
      (∀ c ∈ plan.group_by.getD [], schema.columns.contains c = true) ∧
      (∀ c ∈ plan.order_by.getD [],
        ((plan.group_by.getD []).contains c
          || (plan.metrics.getD []).any (fun m => m.column == some c)) = true) ∧
      p2 = { plan with
        tables := some (dedupFirst tabs)
        columns := some (plan.columns.getD [])
        filters := some (plan.filters.getD [])
        metrics := some (plan.metrics.getD [])
        group_by := some (plan.group_by.getD [])
        order_by := some (plan.order_by.getD []) } := by
  unfold validatePlan at h
  rcases htab : plan.tables with _ | tabs
  · rw [htab] at h; cases h
  · rw [htab] at h
    rcases tabs with _ | ⟨t0, ts⟩
    · cases h
    · simp only at h
      split at h
      · cases h
      · rename_i hlen
        rcases hded : dedupFirst (t0 :: ts) with _ | ⟨lt, rest⟩
        · rw [hded] at h; cases h
        · rcases rest with _ | ⟨r0, rs⟩
          · rw [hded] at h
            dsimp only at h
            rcases hget : getLogicalTable reg lt with e | schema
            · rw [hget] at h; cases h
            · rw [hget] at h
              dsimp only at h
              split at h
              · cases h
              · rename_i hcols_ne
                split at h
                · cases h
                · rename_i hstar
                  rcases hfind : (plan.columns.getD []).find?
                      (fun c => !(schema.columns.contains c)) with _ | c
                  · rw [hfind] at h
                    rcases hfil : firstViolation (checkFilter schema.columns)
                        (plan.filters.getD []) with e | u
                    · rw [hfil] at h; cases h
                    · cases u; rw [hfil] at h
                      dsimp only at h
                      rcases hmet : firstViolation (checkMetric schema.columns)
                          (plan.metrics.getD []) with e | u
                      · rw [hmet] at h; cases h
                      · cases u; rw [hmet] at h
                        dsimp only at h
                        split at h
                        · cases h
                        · rename_i hgbreq
                          rcases hgb : (plan.group_by.getD []).find?
                              (fun c => !(schema.columns.contains c)) with _ | c
                          · rw [hgb] at h
                            rcases hob : (plan.order_by.getD []).find? (fun c =>
                                !((plan.group_by.getD []).contains c
                                  || (plan.metrics.getD []).any
                                    (fun m => m.column == some c))) with _ | c
                            · rw [hob] at h
                              have hbool : ∀ (b : Bool), ¬((!b) = true) → b = true := by
                                decide
                              have hbool2 : ∀ (b : Bool), ¬(b = true) → b = false := by
                                decide
                              refine ⟨t0 :: ts, lt, schema, rfl, hded, hget, ?_, ?_, ?_,
                                hfil, hmet, ?_, ?_, ?_, ?_⟩
                              · simpa using hcols_ne
                              · exact hbool2 _ hstar
                              · intro c hc
                                exact hbool _ (List.find?_eq_none.mp hfind c hc)
                              · intro hcontra
                                exact hgbreq ⟨hcontra.1, hcontra.2.1, hcontra.2.2⟩
                              · intro c hc
                                exact hbool _ (List.find?_eq_none.mp hgb c hc)
                              · intro c hc
                                exact hbool _ (List.find?_eq_none.mp hob c hc)
                              · rw [hded]
                                exact (Except.ok.inj h).symm
                            · rw [hob] at h; cases h
                          · rw [hgb] at h; cases h
                  · rw [hfind] at h; cases h
          · exact absurd (by rw [hded]; simp) hlen

/-- C2 failing input: a plan whose first declared table is absent from the
registry. -/
def unknownTablePlan : StructuredPlan :=
  { basePlan with tables := some ["accounts"] }

/-- C2: the code contradicts the spec here.  `normalizePlan` is specified to
return the plan unchanged when the first declared table is unresolvable, and
its own `if (!tableSchema) return plan` branch shows that intent, but the
registry accessor `getLogicalTable` throws for unknown logical names before
that branch can run, so the exception escapes `normalizePlan` instead. -/
theorem normalizePlan_throws_on_unknown_table :
    normalizePlan ([] : Registry) unknownTablePlan =
      .error "Unknown logical table: accounts" ∧
    normalizePlan ([] : Registry) unknownTablePlan ≠ .ok unknownTablePlan := by
  constructor
  · rfl
  · intro h
    exact Except.noConfusion
      ((rfl : normalizePlan ([] : Registry) unknownTablePlan
          = .error "Unknown logical table: accounts").symm.trans h)

/-- C9: no cache row is ever handed to the insert with a missing, empty or
wrong-dimension embedding; conversely every inserted row carries exactly the
given embedding, which is non-empty and of the configured dimension. -/
theorem storeQueryInCache_rejects_bad_embedding :
    (∀ (dim : Nat) (params : StoreParams) (row : CacheRow),
      storeQueryInCache dim params = some row →
      ∃ emb, params.embedding = some emb ∧ emb ≠ [] ∧ emb.length = dim ∧
        row.question_embedding = emb) ∧
    (∀ (dim : Nat) (params : StoreParams),
      (params.embedding = none ∨ params.embedding = some [] ∨
        (∀ emb, params.embedding = some emb → emb.length ≠ dim)) →
      storeQueryInCache dim params = none) := by
  constructor
  · intro dim params row h
    unfold storeQueryInCache at h
    rcases hemb : params.embedding with _ | emb
    · rw [hemb] at h; cases h
    · rw [hemb] at h
      dsimp only at h
      by_cases h0 : emb.length = 0
      · rw [if_pos h0] at h; cases h
      · rw [if_neg h0] at h
        by_cases hd : emb.length ≠ dim
        · rw [if_pos hd] at h; cases h
        · rw [if_neg hd] at h
          refine ⟨emb, rfl, ?_, by omega, ?_⟩
          · intro hnil; subst hnil; exact h0 rfl
          · cases h; rfl
  · intro dim params hbad
    unfold storeQueryInCache
    rcases hemb : params.embedding with _ | emb
    · rfl
    · dsimp only
      have hlen : emb.length = 0 ∨ emb.length ≠ dim := by
        rcases hbad with hb | hb | hb
        · rw [hemb] at hb; cases hb
        · rw [hemb] at hb
          injection hb with hb
          subst hb
          left; rfl
        · right; exact hb emb hemb
      rcases hlen with h0 | hd
      · rw [if_pos h0]
      · by_cases h0 : emb.length = 0
        · rw [if_pos h0]
        · rw [if_neg h0, if_pos hd]

/-- C9 witness data: an in-dimension store and an empty-embedding store. -/
def demoStoreGood : StoreParams :=
  ⟨some "sess", some "orders_phys", "how many orders",
    "SELECT COUNT(*) FROM \"orders_phys\";", some ["row1", "row2"], some [1, 2, 3]⟩

/-- C9 witness data: a store request with an empty embedding vector. -/
def demoStoreEmpty : StoreParams := { demoStoreGood with embedding := some [] }

/-- C9 witness: the theorem applied at concrete inputs. -/
theorem storeQueryInCache_rejects_bad_embedding_witness :
    storeQueryInCache 3 demoStoreEmpty = none ∧
    (∃ emb, demoStoreGood.embedding = some emb ∧ emb ≠ [] ∧ emb.length = 3 ∧
      (CacheRow.question_embedding ⟨some "sess", some "orders_phys",
        "how many orders", "SELECT COUNT(*) FROM \"orders_phys\"",
        ["row1", "row2"], 2, [1, 2, 3]⟩) = emb) :=
  ⟨storeQueryInCache_rejects_bad_embedding.2 3 demoStoreEmpty (Or.inr (Or.inl rfl)),
   storeQueryInCache_rejects_bad_embedding.1 3 demoStoreGood _ (by decide)⟩

/-- C10: the semantic cache key reads only the table name, intent, columns,
metrics, filters and group_by of a plan, so plans differing only in
`order_by` and/or `limit` (and any other unread field) get identical keys. -/
theorem cacheKey_ignores_order_by_and_limit :
    ∀ (tableName : String) (p q : StructuredPlan),
      p.intent = q.intent → p.columns = q.columns → p.metrics = q.metrics →
      p.filters = q.filters → p.group_by = q.group_by →
      buildSemanticCacheKey tableName p = buildSemanticCacheKey tableName q := by
  intro tableName p q h1 h2 h3 h4 h5
  unfold buildSemanticCacheKey
  rw [h1, h2, h3, h4, h5]

/-- C10 witness: two plans that differ only in ordering and limit share a key. -/
theorem cacheKey_ignores_order_by_and_limit_witness :
    buildSemanticCacheKey "orders_phys" basePlan =
      buildSemanticCacheKey "orders_phys"
        { basePlan with order_by := some ["amount"], limit := some 10 } :=
  cacheKey_ignores_order_by_and_limit "orders_phys" _ _ rfl rfl rfl rfl rfl

/-- Every clause step appends to the accumulated SQL text, so the generated
statement keeps whatever the projection produced as its head. -/
theorem appendIfList_exists_tail {α : Type} (sql : String) (o : Option (List α))
    (render : List α → String) :
    ∃ u, appendIfList sql o render = sql ++ u := by
  unfold appendIfList
  rcases o with _ | l
  · exact ⟨"", (String.append_empty sql).symm⟩
  · rcases l with _ | ⟨x, xs⟩
    · exact ⟨"", (String.append_empty sql).symm⟩
    · exact ⟨render (x :: xs), rfl⟩

/-- C3: a plan whose columns contain the literal wildcard token is never
accepted by the validator, and a validated plan with no columns and no
metrics always yields a `SELECT *` projection from the builder. -/
theorem wildcard_invariant :
    (∀ (reg : Registry) (plan : StructuredPlan) (cols : List String),
      plan.columns = some cols → "*" ∈ cols →
      (validatePlan reg plan).isOk = false) ∧
    (∀ (reg : Registry) (plan plan2 : StructuredPlan) (opts : BuildOptions)
      (sql : String),
      validatePlan reg plan = .ok plan2 → plan2.columns = some [] →
      plan2.metrics = some [] → buildSQL reg plan2 opts = .ok sql →
      ∃ rest, sql = "SELECT * FROM " ++ rest) := by
  constructor
  · intro reg plan cols hc hm
    rcases hv : validatePlan reg plan with e | p2
    · rfl
    · exfalso
      obtain ⟨tabs, lt, schema, _, _, _, _, hstar, _⟩ := validatePlan_ok_spec hv
      rw [hc] at hstar
      have : cols.contains "*" = true := List.elem_eq_true_of_mem hm
      simp only [Option.getD_some] at hstar
      rw [this] at hstar
      cases hstar
  · intro reg plan plan2 opts sql hv hc hm hb
    unfold buildSQL at hb
    rcases htab : plan2.tables with _ | tabs
    · rw [htab] at hb; cases hb
    · rcases tabs with _ | ⟨t, ts⟩
      · rw [htab] at hb
        dsimp only at hb
        cases hb
      · rw [htab] at hb
        dsimp only at hb
        rcases hres : resolvePhysicalTable reg t opts with e | pt
        · rw [hres] at hb; cases hb
        · rw [hres] at hb
          dsimp only at hb
          rw [hc, hm] at hb
          dsimp only at hb
          obtain ⟨u1, hu1⟩ := appendIfList_exists_tail
            ("SELECT " ++ joinSep ", " ["*"] ++ " FROM " ++ ("\"" ++ pt ++ "\""))
            plan2.filters (fun fl =>
              " WHERE " ++ joinSep " AND " (fl.map (fun f =>
                "\"" ++ f.column ++ "\" " ++ f.operator ++ " " ++ renderValue f.value)))
          rw [hu1] at hb
          obtain ⟨u2, hu2⟩ := appendIfList_exists_tail
            ("SELECT " ++ joinSep ", " ["*"] ++ " FROM " ++ ("\"" ++ pt ++ "\"") ++ u1)
            plan2.group_by (fun l =>
              " GROUP BY " ++ joinSep ", " (l.map (fun col => "\"" ++ col ++ "\"")))
          rw [hu2] at hb
          obtain ⟨u3, hu3⟩ := appendIfList_exists_tail
            ("SELECT " ++ joinSep ", " ["*"] ++ " FROM " ++ ("\"" ++ pt ++ "\"") ++ u1 ++ u2)
            plan2.order_by (fun l =>
              " ORDER BY " ++ joinSep ", " (l.map (fun col => "\"" ++ col ++ "\"")))
          rw [hu3] at hb
          have hsel : ("SELECT " ++ joinSep ", " ["*"] ++ " FROM " : String)
              = "SELECT * FROM " := rfl
          rcases hlim : plan2.limit with _ | n
          · rw [hlim] at hb
            refine ⟨"\"" ++ pt ++ "\"" ++ u1 ++ u2 ++ u3, ?_⟩
            rw [← (Except.ok.inj hb)]
            rw [← hsel]
            simp [String.append_assoc]
          · rw [hlim] at hb
            dsimp only at hb
            refine ⟨"\"" ++ pt ++ "\"" ++ u1 ++ u2 ++ u3 ++ " LIMIT " ++ toString n, ?_⟩
            rw [← (Except.ok.inj hb)]
            rw [← hsel]
            simp [String.append_assoc]

/-- C3 witness: a concrete wildcard plan is rejected; a concrete validated
plan with empty columns and metrics builds a `SELECT *`. -/
theorem wildcard_invariant_witness :
    (validatePlan ordersReg { basePlan with columns := some ["*"] }).isOk = false ∧
    (∃ rest, "SELECT * FROM \"orders_phys\"" = "SELECT * FROM " ++ rest) :=
  ⟨wildcard_invariant.1 ordersReg { basePlan with columns := some ["*"] } ["*"]
      rfl (by decide),
   wildcard_invariant.2 ordersReg basePlan basePlan ⟨none, none⟩
      "SELECT * FROM \"orders_phys\"" rfl rfl rfl rfl⟩

/-- C4 counterexample registry: a table whose column set contains a column
literally named `*`. -/
def starColumnReg : Registry := [⟨"t", "t_phys", ["*"], none⟩]

/-- C4 counterexample plan: an `AVG` metric over the column `*`. -/
def avgStarPlan : StructuredPlan :=
  { basePlan with
    tables := some ["t"]
    metrics := some [{ column := some "*", aggregation := "AVG" }] }

/-- C4 counterexample: the claim says a metric `AVG` over `*` always fails
validation for every schema, but a schema registering a column literally
named `*` makes the metric-column membership test succeed, so the plan
validates. -/
theorem count_universality_counterexample :
    avgStarPlan.metrics = some [{ column := some "*", aggregation := "AVG" }] ∧
    (validatePlan starColumnReg avgStarPlan).isOk = true := ⟨by decide, by decide⟩

/-- C4 as amended: a COUNT metric with column `*` or with the column omitted
passes the validator's metric check against every registered table, and an
`AVG` metric over `*` fails validation whenever no registered table has a
column literally named `*`. -/
theorem count_universality_amended :
    (∀ (reg : Registry) (t : String) (schema : LogicalTableEntry) (c : Option String),
      getLogicalTable reg t = .ok schema → schema.columns ≠ [] →
      (c = some "*" ∨ c = none) →
      checkMetric schema.columns { column := c, aggregation := "COUNT" } = .ok ()) ∧
    (∀ (reg : Registry) (plan : StructuredPlan) (ms : List Metric),
      plan.metrics = some ms →
      ({ column := some "*", aggregation := "AVG" } : Metric) ∈ ms →
      (∀ entry ∈ reg, "*" ∉ entry.columns) →
      (validatePlan reg plan).isOk = false) := by
  constructor
  · intro reg t schema c _ _ hc
    unfold checkMetric
    rcases hc with hc | hc <;> subst hc
    · rw [if_neg (by decide), if_pos ⟨rfl, Or.inl rfl⟩]
    · rw [if_neg (by decide), if_pos ⟨rfl, Or.inr (Or.inl rfl)⟩]
  · intro reg plan ms hm hmem hstar
    rcases hv : validatePlan reg plan with e | p2
    · rfl
    · exfalso
      obtain ⟨tabs, lt, schema, _, _, hget, _, _, _, _, hmet, _⟩ :=
        validatePlan_ok_spec hv
      have hchk := firstViolation_ok_forall hmet
        { column := some "*", aggregation := "AVG" } (by rw [hm]; exact hmem)
      unfold checkMetric at hchk
      rw [if_neg (by decide), if_neg (by intro hh; exact absurd hh.1 (by decide)),
        if_neg (by decide)] at hchk
      have hcontains : schema.columns.contains "*" = true := by
        by_contra hcon
        rw [if_neg ?_] at hchk
        · cases hchk
        · intro hh
          exact hcon hh
      have hin : "*" ∈ schema.columns := List.mem_of_elem_eq_true hcontains
      have hschema_mem : schema ∈ reg := by
        unfold getLogicalTable at hget
        rcases hfind : reg.find? (fun e => e.logicalName == lt) with _ | entry
        · rw [hfind] at hget; cases hget
        · rw [hfind] at hget
          cases hget
          exact List.mem_of_find?_eq_some hfind
      exact hstar schema hschema_mem hin

/-- C4 witness: both amended halves instantiated concretely. -/
theorem count_universality_amended_witness :
    checkMetric ["id", "amount", "status"]
      { column := some "*", aggregation := "COUNT" } = .ok () ∧
    (validatePlan ordersReg
      { basePlan with metrics := some [{ column := some "*", aggregation := "AVG" }] }).isOk
      = false :=
  ⟨count_universality_amended.1 ordersReg "orders"
      ⟨"orders", "orders_phys", ["id", "amount", "status"], none⟩ (some "*")
      rfl (by decide) (Or.inl rfl),
   count_universality_amended.2 ordersReg
      { basePlan with metrics := some [{ column := some "*", aggregation := "AVG" }] }
      [{ column := some "*", aggregation := "AVG" }] rfl (by decide) (by decide)⟩

/-- C6: for a non-COUNT aggregation keyword match, when the plan does not
carry exactly one selected column and no selected column name contains a
numeric-sounding fragment, extractMetrics throws the ask-the-user error. -/
theorem unresolvable_aggregation_column_throws :
    ∀ (question : String) (plan : StructuredPlan) (cols : List String) (a : String),
      plan.columns = some cols →
      cols.length ≠ 1 →
      (∀ c ∈ cols, ∀ h ∈ NUMERIC_HINTS, strIncludes (lowerStr c) h = false) →
      firstMatchedAgg question = some a →
      a ≠ "COUNT" →
      extractMetrics question plan =
        .error ("Cannot infer numeric column for " ++ a
          ++ ". Ask user to specify a column.") := by
  intro question plan cols a hc hlen hhints hagg hnc
  obtain ⟨rule, hrule, hragg⟩ := Option.map_eq_some'.mp hagg
  have hinfer : inferMetricColumn rule.2 { plan with metrics := some [] } =
      .error ("Cannot infer numeric column for " ++ a
        ++ ". Ask user to specify a column.") := by
    unfold inferMetricColumn
    rw [if_neg (by rw [hragg]; exact hnc)]
    have hcols : ({ plan with metrics := some [] } : StructuredPlan).columns
        = some cols := hc
    rw [hcols]
    dsimp only
    rcases cols with _ | ⟨c0, cs⟩
    · simp only [List.find?_nil]
      rw [hragg]
    · rcases cs with _ | ⟨c1, cs'⟩
      · exact absurd rfl hlen
      · dsimp only
        have hnone : (c0 :: c1 :: cs').find? (fun col =>
            NUMERIC_HINTS.any (fun h => strIncludes (lowerStr col) h)) = none := by
          refine List.find?_eq_none.mpr ?_
          intro x hx
          have hall : NUMERIC_HINTS.any (fun h => strIncludes (lowerStr x) h) = false :=
            List.any_eq_false.mpr (fun hint hh => by simp [hhints x hx hint hh])
          simp [hall]
        rw [hnone]
        dsimp only
        rw [hragg]
  unfold extractMetrics
  dsimp only
  rw [hrule]
  dsimp only
  rw [hinfer]

/-- C6 witness: an AVG question over a plan with two non-numeric-sounding
columns throws the ask-the-user error. -/
theorem unresolvable_aggregation_column_throws_witness :
    extractMetrics "average of what"
      { basePlan with columns := some ["status", "id"] } =
      .error "Cannot infer numeric column for AVG. Ask user to specify a column." :=
  unresolvable_aggregation_column_throws "average of what"
    { basePlan with columns := some ["status", "id"] } ["status", "id"] "AVG"
    rfl (by decide) (by decide) rfl (by decide)

/-- C7 counterexample plan: the same table declared twice. -/
def dupTablesPlan : StructuredPlan :=
  { basePlan with tables := some ["orders", "orders"] }

/-- C7 counterexample: the validator accepts a plan whose tables list holds a
duplicate and returns it with the tables list deduplicated, so an accepted
plan is mutated beyond the array-field defaulting. -/
theorem validator_tables_mutation_counterexample :
    validatePlan ordersReg dupTablesPlan
      = .ok { dupTablesPlan with tables := some ["orders"] } ∧
    ¬(({ dupTablesPlan with tables := some ["orders"] } : StructuredPlan).tables
        = dupTablesPlan.tables) := ⟨rfl, by decide⟩

/-- C7 as amended: on success the validator returns the input plan with
exactly two kinds of mutation — the five array fields are defaulted in place
to their contents (or to the empty array when missing/non-array) and the
tables list is deduplicated keeping first occurrences; every other field,
including intent and limit, is returned exactly as given. -/
theorem validator_frame_amended :
    ∀ (reg : Registry) (plan p2 : StructuredPlan),
      validatePlan reg plan = .ok p2 →
      p2 = { plan with
        tables := some (dedupFirst (plan.tables.getD []))
        columns := some (plan.columns.getD [])
        filters := some (plan.filters.getD [])
        metrics := some (plan.metrics.getD [])
        group_by := some (plan.group_by.getD [])
        order_by := some (plan.order_by.getD []) } := by
  intro reg plan p2 h
  obtain ⟨tabs, lt, schema, htab, _, _, _, _, _, _, _, _, _, _, hp2⟩ :=
    validatePlan_ok_spec h
  rw [hp2, htab]
  rfl

/-- C7 witness: the amended frame property at the duplicate-tables plan. -/
theorem validator_frame_amended_witness :
    ({ dupTablesPlan with tables := some ["orders"] } : StructuredPlan)
      = { dupTablesPlan with
          tables := some (dedupFirst (dupTablesPlan.tables.getD []))
          columns := some (dupTablesPlan.columns.getD [])
          filters := some (dupTablesPlan.filters.getD [])
          metrics := some (dupTablesPlan.metrics.getD [])
          group_by := some (dupTablesPlan.group_by.getD [])
          order_by := some (dupTablesPlan.order_by.getD []) } :=
  validator_frame_amended ordersReg dupTablesPlan
    { dupTablesPlan with tables := some ["orders"] } rfl

/-- Sorting a list of strings depends only on its multiset of elements. -/
theorem insertionSortStr_perm_eq {l l2 : List String} (h : l.Perm l2) :
    l.insertionSort (fun a b => a ≤ b) = l2.insertionSort (fun a b => a ≤ b) := by
  refine List.eq_of_perm_of_sorted ?_
    (List.sorted_insertionSort _ l) (List.sorted_insertionSort _ l2)
  exact (List.perm_insertionSort _ l).trans (h.trans (List.perm_insertionSort _ l2).symm)

/-- Sorting by a string key and then projecting the key depends only on the
multiset of elements. -/
theorem map_insertionSort_key {α : Type} (f : α → String) {l l2 : List α}
    (h : l.Perm l2) :
    (l.insertionSort (fun a b => f a ≤ f b)).map f
      = (l2.insertionSort (fun a b => f a ≤ f b)).map f := by
  haveI hto : IsTotal α (fun a b => f a ≤ f b) := ⟨fun a b => le_total (f a) (f b)⟩
  haveI htr : IsTrans α (fun a b => f a ≤ f b) :=
    ⟨fun a b c hab hbc => le_trans hab hbc⟩
  refine List.eq_of_perm_of_sorted (r := fun a b : String => a ≤ b) ?_ ?_ ?_
  · exact ((List.perm_insertionSort _ l).trans
      (h.trans (List.perm_insertionSort _ l2).symm)).map f
  · exact List.Pairwise.map f (fun a b hab => hab) (List.sorted_insertionSort _ l)
  · exact List.Pairwise.map f (fun a b hab => hab) (List.sorted_insertionSort _ l2)

/-- C8: the semantic cache key is insensitive to the insertion order of the
columns, metrics, filters and group_by lists. -/
theorem cache_key_order_independent :
    ∀ (tableName : String) (p q : StructuredPlan),
      p.intent = q.intent →
      (p.columns.getD []).Perm (q.columns.getD []) →
      (p.metrics.getD []).Perm (q.metrics.getD []) →
      (p.filters.getD []).Perm (q.filters.getD []) →
      (p.group_by.getD []).Perm (q.group_by.getD []) →
      buildSemanticCacheKey tableName p = buildSemanticCacheKey tableName q := by
  intro tableName p q h0 h1 h2 h3 h4
  unfold buildSemanticCacheKey
  dsimp only
  rw [h0, insertionSortStr_perm_eq h1, insertionSortStr_perm_eq h4,
    map_insertionSort_key metricJson h2, map_insertionSort_key filterJson h3]

/-- C8 witness: permuted columns and filters give the same key. -/
theorem cache_key_order_independent_witness :
    buildSemanticCacheKey "orders_phys"
      { basePlan with
        columns := some ["status", "amount"]
        filters := some [⟨"amount", ">", .num 5⟩, ⟨"status", "=", .str "open"⟩] } =
    buildSemanticCacheKey "orders_phys"
      { basePlan with
        columns := some ["amount", "status"]
        filters := some [⟨"status", "=", .str "open"⟩, ⟨"amount", ">", .num 5⟩] } :=
  cache_key_order_independent "orders_phys" _ _ rfl (by decide) (by decide)
    (by decide) (by decide)

/-- Success characterization of `extractMetrics`: either no keyword rule
matched and the plan is returned with metrics reset, or the first matching
rule produced the single metric and aggregation mode was forced. -/
theorem extractMetrics_ok_cases {q : String} {plan res : StructuredPlan}
    (h : extractMetrics q plan = .ok res) :
    (METRIC_KEYWORDS.find? (fun rule =>
        rule.1.any (fun w => strIncludes (lowerStr q) w)) = none ∧
      res = { plan with metrics := some [] }) ∨
    (∃ rule col,
      METRIC_KEYWORDS.find? (fun rule =>
        rule.1.any (fun w => strIncludes (lowerStr q) w)) = some rule ∧
      inferMetricColumn rule.2 { plan with metrics := some [] } = .ok col ∧
      res = { plan with
        metrics := some [{ column := some col, aggregation := rule.2 }]
        columns := some []
        order_by := some []
        limit := none }) := by
  unfold extractMetrics at h
  dsimp only at h
  rcases hfind : METRIC_KEYWORDS.find? (fun rule =>
      rule.1.any (fun w => strIncludes (lowerStr q) w)) with _ | rule
  · rw [hfind] at h
    dsimp only at h
    exact .inl ⟨hfind, (Except.ok.inj h).symm⟩
  · rw [hfind] at h
    dsimp only at h
    rcases hinf : inferMetricColumn rule.2 { plan with metrics := some [] }
        with e | col
    · rw [hinf] at h; cases h
    · rw [hinf] at h
      dsimp only at h
      exact .inr ⟨rule, col, hfind, hinf, (Except.ok.inj h).symm⟩

/-- C5: the metric extractor first clears pre-existing metrics (its result
does not depend on the incoming metrics), produces at most one metric, picks
the aggregation of the first matching rule in the fixed priority order (so a
question containing `how many` always yields the COUNT(*) metric no matter
what other keywords occur), clears columns/order_by/limit whenever a metric
is produced, and leaves the plan with empty metrics when no keyword rule
matches. -/
theorem metric_extractor_priority :
    (∀ (q : String) (plan : StructuredPlan) (m1 m2 : Option (List Metric)),
      extractMetrics q { plan with metrics := m1 }
        = extractMetrics q { plan with metrics := m2 }) ∧
    (∀ (q : String) (plan res : StructuredPlan),
      extractMetrics q plan = .ok res →
      ∃ ms, res.metrics = some ms ∧ ms.length ≤ 1) ∧
    (∀ (q : String) (plan res : StructuredPlan) (ms : List Metric) (m : Metric),
      extractMetrics q plan = .ok res → res.metrics = some ms → m ∈ ms →
      some m.aggregation = firstMatchedAgg q) ∧
    (∀ (q : String) (plan res : StructuredPlan),
      strIncludes (lowerStr q) "how many" = true →
      extractMetrics q plan = .ok res →
      res.metrics = some [{ column := some "*", aggregation := "COUNT" }]) ∧
    (∀ (q : String) (plan res : StructuredPlan) (ms : List Metric),
      extractMetrics q plan = .ok res → res.metrics = some ms → ms ≠ [] →
      res.columns = some [] ∧ res.order_by = some [] ∧ res.limit = none) ∧
    (∀ (q : String) (plan res : StructuredPlan),
      firstMatchedAgg q = none → extractMetrics q plan = .ok res →
      res = { plan with metrics := some [] }) := by
  refine ⟨?_, ?_, ?_, ?_, ?_, ?_⟩
  · intro q plan m1 m2
    rfl
  · intro q plan res h
    rcases extractMetrics_ok_cases h with ⟨_, hres⟩ | ⟨rule, col, _, _, hres⟩
    · subst hres; exact ⟨[], rfl, by decide⟩
    · subst hres
      exact ⟨[{ column := some col, aggregation := rule.2 }], rfl, by simp⟩
  · intro q plan res ms m h hms hmem
    rcases extractMetrics_ok_cases h with ⟨hfind, hres⟩ | ⟨rule, col, hfind, _, hres⟩
    · subst hres
      cases Option.some.inj hms
      cases hmem
    · subst hres
      cases Option.some.inj hms
      rcases List.mem_singleton.mp hmem with rfl
      unfold firstMatchedAgg
      rw [hfind]
      rfl
  · intro q plan res hq h
    have hfind0 : METRIC_KEYWORDS.find? (fun rule =>
        rule.1.any (fun w => strIncludes (lowerStr q) w))
        = some (["how many", "count", "number of"], "COUNT") := by
      unfold METRIC_KEYWORDS
      refine List.find?_cons_of_pos _ ?_
      simp [hq]
    rcases extractMetrics_ok_cases h with ⟨hfind, _⟩ | ⟨rule, col, hfind, hinf, hres⟩
    · rw [hfind0] at hfind; cases hfind
    · rw [hfind0] at hfind
      cases Option.some.inj hfind
      have hcol : col = "*" := by
        have : inferMetricColumn "COUNT" { plan with metrics := some [] }
            = .ok "*" := rfl
        rw [this] at hinf
        exact (Except.ok.inj hinf).symm
      subst hcol
      rw [hres]
  · intro q plan res ms h hms hne
    rcases extractMetrics_ok_cases h with ⟨_, hres⟩ | ⟨rule, col, _, _, hres⟩
    · subst hres
      cases Option.some.inj hms
      exact absurd rfl hne
    · subst hres
      exact ⟨rfl, rfl, rfl⟩
  · intro q plan res hnone h
    rcases extractMetrics_ok_cases h with ⟨_, hres⟩ | ⟨rule, col, hfind, _, _⟩
    · exact hres
    · exfalso
      unfold firstMatchedAgg at hnone
      rw [hfind] at hnone
      cases hnone

/-- C5 witness: a question containing both `how many` and `average` yields
the single COUNT(*) metric with projection, ordering and limit cleared. -/
theorem metric_extractor_priority_witness :
    ({ basePlan with
        metrics := some [{ column := some "*", aggregation := "COUNT" }]
        columns := some []
        order_by := some []
        limit := none } : StructuredPlan).metrics
      = some [{ column := some "*", aggregation := "COUNT" }] :=
  metric_extractor_priority.2.2.2.1 "how many orders have the average amount"
    basePlan
    { basePlan with
      metrics := some [{ column := some "*", aggregation := "COUNT" }]
      columns := some []
      order_by := some []
      limit := none }
    (by decide) rfl

/-- The column-normalization pass of the normalizer, as a standalone
function: wildcard list becomes empty, any invalid column empties the list. -/
def columnsPass (V c0 : List String) : List String :=
  if (if c0.contains "*" then [] else c0).any (fun c => !(V.contains c)) then []
  else if c0.contains "*" then [] else c0

/-- Filtering is idempotent. -/
theorem filter_pass_idem {β : Type} (p : β → Bool) (l : List β) :
    (l.filter p).filter p = l.filter p :=
  List.filter_eq_self.mpr (fun _ ha => (List.mem_filter.mp ha).2)

/-- The column-normalization pass is idempotent. -/
theorem columnsPass_idem (V c0 : List String) :
    columnsPass V (columnsPass V c0) = columnsPass V c0 := by
  unfold columnsPass
  by_cases hstar : c0.contains "*" = true
  · rw [if_pos hstar]
    simp
  · rw [if_neg hstar]
    by_cases hbad : c0.any (fun c => !(V.contains c)) = true
    · rw [if_pos hbad]
      simp
    · simp only [if_neg hbad, if_neg hstar]

/-- Evaluation of the normalizer when the first declared table resolves: the
semantic-resolution branch never changes the plan (the resolver returns null
whenever the lookup succeeds), and each list field is narrowed. -/
theorem normalizePlan_eq_of_resolved {reg : Registry} {plan : StructuredPlan}
    {t : String} {ts : List String} {schema : LogicalTableEntry}
    (htab : plan.tables = some (t :: ts))
    (hget : getLogicalTable reg t = .ok schema) :
    normalizePlan reg plan = .ok { plan with
      columns := some (columnsPass schema.columns (plan.columns.getD []))
      filters := some ((plan.filters.getD []).filter
        (fun f => schema.columns.contains f.column))
      metrics := some ((plan.metrics.getD []).filter
        (fun m => match m.column with
          | some c => schema.columns.contains c
          | none => false))
      group_by := some ((plan.group_by.getD []).filter
        (fun c => schema.columns.contains c))
      order_by := some ((plan.order_by.getD []).filter
        (fun c => schema.columns.contains c)) } := by
  unfold normalizePlan
  rw [htab]
  dsimp only
  rw [hget]
  dsimp only
  have hres : (if plan.intent.isSome = true ∧ plan.columns = some []
        ∧ plan.metrics = some [] then
      resolveColumnSemantically reg (plan.intent.getD "") t
    else .ok none) = .ok none := by
    split
    · unfold resolveColumnSemantically
      rw [hget]
    · rfl
  rw [hres]
  dsimp only
  unfold columnsPass
  rw [htab]

/-- A normalized plan is a fixed point of the normalizer. -/
theorem normalizePlan_fix {reg : Registry} {plan p2 : StructuredPlan}
    (h : normalizePlan reg plan = .ok p2) :
    normalizePlan reg p2 = .ok p2 := by
  rcases htab : plan.tables with _ | tabs
  · have h0 : normalizePlan reg plan = .ok plan := by
      unfold normalizePlan; rw [htab]
    rw [h0] at h
    cases Except.ok.inj h
    exact h0
  · rcases tabs with _ | ⟨t, ts⟩
    · have h0 : normalizePlan reg plan = .ok plan := by
        unfold normalizePlan; rw [htab]
      rw [h0] at h
      cases Except.ok.inj h
      exact h0
    · rcases hget : getLogicalTable reg t with e | schema
      · have h0 : normalizePlan reg plan = .error e := by
          unfold normalizePlan; rw [htab]; dsimp only; rw [hget]
        rw [h0] at h
        cases h
      · rw [normalizePlan_eq_of_resolved htab hget] at h
        cases Except.ok.inj h
        have htab2 : ({ plan with
            columns := some (columnsPass schema.columns (plan.columns.getD []))
            filters := some ((plan.filters.getD []).filter
              (fun f => schema.columns.contains f.column))
            metrics := some ((plan.metrics.getD []).filter
              (fun m => match m.column with
                | some c => schema.columns.contains c
                | none => false))
            group_by := some ((plan.group_by.getD []).filter
              (fun c => schema.columns.contains c))
            order_by := some ((plan.order_by.getD []).filter
              (fun c => schema.columns.contains c)) } : StructuredPlan).tables
            = some (t :: ts) := htab
        rw [normalizePlan_eq_of_resolved htab2 hget]
        dsimp only [Option.getD]
        rw [columnsPass_idem, filter_pass_idem, filter_pass_idem, filter_pass_idem,
          filter_pass_idem]

/-- C1: normalization is idempotent — running the normalizer on its own
output (same registry state) returns that output unchanged, so composing the
normalizer with itself equals one application, on successes and on thrown
errors alike. -/
theorem normalizePlan_idempotent :
    ∀ (reg : Registry) (plan : StructuredPlan),
      (normalizePlan reg plan).bind (normalizePlan reg) = normalizePlan reg plan := by
  intro reg plan
  rcases hv : normalizePlan reg plan with e | p2
  · rfl
  · show normalizePlan reg p2 = .ok p2
    exact normalizePlan_fix hv

end DataChat
